import Mathlib

/-!
Shallow embedding of `ha-shine/infix-calculator` (src/lib.rs): an infix
arithmetic expression is converted to Reverse Polish Notation by
`RPNQueue::from_infix_string` (shunting-yard) and evaluated by
`RPNQueue::calculate`.

Modelling choices:
* Rust `char` iteration (`input.chars()`) becomes iteration over
  `String.data : List Char`.
* Rust `Vec<String>` stacks become `List String` with the head as the top
  (Rust pushes/pops at the end; the list head plays the role of the end).
  The output queue keeps Rust's push order, appending at the tail.
* `Result<T, String>` becomes `Except String T`.
* `f64` values are modelled as exact rationals `ℚ`; the numeric parser
  models `str::parse::<f64>()` on the unsigned decimal-literal shapes
  (digits and at most one `.`), the only shapes relevant to these tokens.
-/

namespace InfixCalculator

/-- Code points with Rust's `char::is_whitespace` (Unicode `White_Space`)
property, used by the scanner's first match arm. -/
def rustIsWhitespace (c : Char) : Bool :=
  (9 ≤ c.toNat && c.toNat ≤ 13) || c.toNat == 32 || c.toNat == 0x85 ||
  c.toNat == 0xA0 || c.toNat == 0x1680 ||
  (0x2000 ≤ c.toNat && c.toNat ≤ 0x200A) || c.toNat == 0x2028 ||
  c.toNat == 0x2029 || c.toNat == 0x202F || c.toNat == 0x205F ||
  c.toNat == 0x3000

/-- Rust's pattern `'0'...'9'` (inclusive digit range). -/
def isDigitChar (c : Char) : Bool :=
  48 ≤ c.toNat && c.toNat ≤ 57

/-- Is the character one of the four operator characters of the scanner's
`'+' | '-' | '*' | '/'` arm? -/
def isOpChar (c : Char) : Bool :=
  c == '+' || c == '-' || c == '*' || c == '/'

/-- The `PRECEDENCE` table (`lazy_static` HashMap): `+`,`-` ↦ 1 and
`*`,`/` ↦ 2; absent keys give `none` like `HashMap::get`. -/
def PRECEDENCE (s : String) : Option Nat :=
  if s == "+" then some 1
  else if s == "-" then some 1
  else if s == "*" then some 2
  else if s == "/" then some 2
  else none

/-- Rust's `PRECEDENCE.get(x).unwrap_or(&0)`, as applied to the operator-stack
top. -/
def precOrZero (s : String) : Nat :=
  (PRECEDENCE s).getD 0

/-- The scanner state of `from_infix_string`: the `output` queue, the
operator `stack` (head = top), and the numeric-literal `buffer`. -/
structure ScanState where
  output : List String
  stack : List String
  buffer : String
deriving Repr, DecidableEq

/-- Rust's `if !buffer.is_empty() { output.push(buffer); buffer = String::new() }`
idiom that flushes a pending numeric literal into the output. -/
def flushBuffer (st : ScanState) : ScanState :=
  if st.buffer.isEmpty then st
  else { st with output := st.output ++ [st.buffer], buffer := "" }

/-- The operator-arm loop: while the stack is non-empty and the precedence of
its top is strictly greater than `p`, pop the top into the output. Returns
the popped tokens (in pop order) and the remaining stack. -/
def popOps (stack : List String) (p : Nat) : List String × List String :=
  match stack with
  | [] => ([], [])
  | top :: rest =>
    if p < precOrZero top then
      (top :: (popOps rest p).1, (popOps rest p).2)
    else ([], top :: rest)

/-- The `)`-arm loop: while the stack is non-empty and its top is not `"("`,
pop the top into the output. Returns the popped tokens and the remaining
stack (either empty or with `"("` on top). -/
def popUntilParen (stack : List String) : List String × List String :=
  match stack with
  | [] => ([], [])
  | top :: rest =>
    if top == "(" then ([], top :: rest)
    else (top :: (popUntilParen rest).1, (popUntilParen rest).2)

/-- One iteration of the scanner's `match token` over a character of the
input, in the source's arm order: whitespace, operator, `(`, `)`,
digit-or-dot, invalid. -/
def scanStep (st : ScanState) (c : Char) : Except String ScanState :=
  if rustIsWhitespace c then
    .ok (flushBuffer st)
  else if isOpChar c then
    let st' := flushBuffer st
    .ok ⟨st'.output ++ (popOps st'.stack (precOrZero c.toString)).1,
         c.toString :: (popOps st'.stack (precOrZero c.toString)).2, st'.buffer⟩
  else if c == '(' then
    .ok { st with stack := c.toString :: st.stack }
  else if c == ')' then
    let st' := flushBuffer st
    .ok ⟨st'.output ++ (popUntilParen st'.stack).1,
         (popUntilParen st'.stack).2.tail, st'.buffer⟩
  else if c == '.' || isDigitChar c then
    .ok { st with buffer := st.buffer.push c }
  else
    .error ("Invalid token: " ++ c.toString)

/-- The scanner's `for token in input.chars()` loop: run `scanStep` on each
character in order, propagating the early `return Err` of the invalid arm. -/
def scanChars (st : ScanState) : List Char → Except String ScanState
  | [] => .ok st
  | c :: cs => do
    let st' ← scanStep st c
    scanChars st' cs

/-- Function `RPNQueue::from_infix_string`: scan every character, then drain
the operator stack into the output (the pending buffer is *not* flushed). -/
def from_infix_string (input : String) : Except String (List String) :=
  (scanChars ⟨[], [], ""⟩ input.data).map fun st => st.output ++ st.stack

/-- Digit list to natural number, most significant first. -/
def digitsToNat (ds : List Char) : Nat :=
  ds.foldl (fun n c => 10 * n + (c.toNat - 48)) 0

/-- Split a character list on `'.'` (groups between the dots, like
`str::split('.')`). -/
def splitDot (cs : List Char) : List (List Char) :=
  match cs with
  | [] => [[]]
  | c :: rest =>
    if c == '.' then [] :: splitDot rest
    else
      match splitDot rest with
      | group :: groups => (c :: group) :: groups
      | [] => [[c]]

/-- Models `str::parse::<f64>()` on the token shapes at hand, with `f64`
values as exact rationals: an unsigned decimal literal is a non-empty run
of digits with at most one `.` and at least one digit (`"1."` and `".5"`
parse, `"."`, `""`, `"1.2.3"` and any non-digit-dot character do not).
Returns `none` exactly when Rust's parse would return `Err`. -/
def parseDecimal (s : String) : Option ℚ :=
  match splitDot s.data with
  | [ds] =>
    if ds ≠ [] ∧ ds.all isDigitChar then some (digitsToNat ds) else none
  | [as, bs] =>
    if (as ++ bs) ≠ [] ∧ (as ++ bs).all isDigitChar then
      some ((digitsToNat as : ℚ) + (digitsToNat bs : ℚ) / (10 : ℚ) ^ bs.length)
    else none
  | _ => none

/-- Function `compute_result`: apply a binary operator to its first (left)
and second (right) operand. -/
def compute_result (first second : ℚ) (op : String) : Except String ℚ :=
  if op == "+" then .ok (first + second)
  else if op == "-" then .ok (first - second)
  else if op == "*" then .ok (first * second)
  else if op == "/" then .ok (first / second)
  else .error ("invalid operator: " ++ op)

/-- One iteration of the loop of `calculate` over a token: an operator pops
the right then the left operand (failing with `not enough input` on an empty
stack) and pushes the result; any other token is parsed as a number
(failing with `Invalid token`) and pushed. -/
def calcStep (numbers : List ℚ) (x : String) : Except String (List ℚ) :=
  if x == "+" || x == "-" || x == "*" || x == "/" then
    match numbers with
    | second :: first :: rest => do
      let result ← compute_result first second x
      .ok (result :: rest)
    | _ => .error "not enough input"
  else
    match parseDecimal x with
    | some number => .ok (number :: numbers)
    | none => .error ("Invalid token: " ++ x)

/-- The final `numbers.pop().ok_or(...)` of `calculate`: return the most
recently pushed value, failing when the stack is empty; deeper leftover
values are ignored. -/
def calcFinish (numbers : List ℚ) : Except String ℚ :=
  match numbers with
  | result :: _ => .ok result
  | [] => .error "not enough input"

/-- The loop of `calculate` over the token list, threading the operand
stack. -/
def calcTokens (numbers : List ℚ) : List String → Except String (List ℚ)
  | [] => .ok numbers
  | x :: xs => do
    let numbers' ← calcStep numbers x
    calcTokens numbers' xs

/-- Method `RPNQueue::calculate`: fold the tokens over an operand stack,
then pop the result. -/
def calculate (tokens : List String) : Except String ℚ := do
  let numbers ← calcTokens [] tokens
  calcFinish numbers

/-- The conversion-then-evaluation pipeline, as composed by `main.rs` (the
spec's `evaluate_infix` convenience composition). -/
def evalInfixString (input : String) : Except String ℚ := do
  let tokens ← from_infix_string input
  calculate tokens

/-- A character the scanner accepts (any arm except the `invalid` one). -/
def validChar (c : Char) : Bool :=
  rustIsWhitespace c || isOpChar c || c == '(' || c == ')' ||
  c == '.' || isDigitChar c

/-- Output of the scanner state: tokens that are not the string `")"`, with
the pending buffer made of digit/dot characters only. Invariant used to
show no closing parenthesis ever reaches a token sequence. -/
def NoCloseParen (st : ScanState) : Prop :=
  (∀ t ∈ st.output, t ≠ ")") ∧ (∀ t ∈ st.stack, t ≠ ")") ∧
  (∀ c ∈ st.buffer.data, (c == '.' || isDigitChar c) = true)

section Lemmas

lemma scanChars_cons (st : ScanState) (c : Char) (cs : List Char) :
    scanChars st (c :: cs) = Except.bind (scanStep st c) fun st' => scanChars st' cs := rfl

lemma ok_bind {α β : Type} (a : α) (f : α → Except String β) :
    Except.bind (Except.ok a) f = f a := rfl

lemma err_bind {α β : Type} (e : String) (f : α → Except String β) :
    Except.bind (Except.error e) f = Except.error e := rfl

lemma scanChars_append (l₁ l₂ : List Char) (st : ScanState) :
    scanChars st (l₁ ++ l₂) =
      Except.bind (scanChars st l₁) fun st' => scanChars st' l₂ := by
  induction l₁ generalizing st with
  | nil => simp [scanChars, ok_bind]
  | cons c cs ih =>
    rw [List.cons_append, scanChars_cons, scanChars_cons]
    cases scanStep st c with
    | error e => simp [err_bind]
    | ok st' => simp [ok_bind, ih]

lemma flushBuffer_of_empty (st : ScanState) (h : st.buffer = "") :
    flushBuffer st = st := by
  unfold flushBuffer
  rw [h]
  rfl

lemma flushBuffer_of_ne (st : ScanState) (h : st.buffer ≠ "") :
    flushBuffer st = ⟨st.output ++ [st.buffer], st.stack, ""⟩ := by
  unfold flushBuffer
  rw [if_neg]
  simp [String.isEmpty_iff, h]

lemma ws_scanStep (st : ScanState) (c : Char) (h : rustIsWhitespace c = true) :
    scanStep st c = .ok (flushBuffer st) := by
  simp [scanStep, h]

end Lemmas

section CharClassLemmas

lemma char_beq_false {c d : Char} (h : c.toNat ≠ d.toNat) : (c == d) = false := by
  rw [Bool.eq_false_iff, ne_eq, beq_iff_eq]
  intro he
  exact h (by rw [he])

lemma not_ws_of_visible_ascii (c : Char) (h1 : 33 ≤ c.toNat) (h2 : c.toNat ≤ 127) :
    rustIsWhitespace c = false := by
  rw [Bool.eq_false_iff]
  simp only [rustIsWhitespace, Bool.or_eq_true, Bool.and_eq_true,
    decide_eq_true_eq, beq_iff_eq, ne_eq]
  omega

lemma digit_bounds (c : Char) (h : isDigitChar c = true) :
    48 ≤ c.toNat ∧ c.toNat ≤ 57 := by
  simpa [isDigitChar] using h

lemma op_char_cases {c : Char} (h : isOpChar c = true) :
    c = '+' ∨ c = '-' ∨ c = '*' ∨ c = '/' := by
  unfold isOpChar at h
  rcases Bool.or_eq_true_iff.mp h with h3 | h4
  · rcases Bool.or_eq_true_iff.mp h3 with h2 | h3'
    · rcases Bool.or_eq_true_iff.mp h2 with h1 | h2'
      · exact Or.inl (eq_of_beq h1)
      · exact Or.inr (Or.inl (eq_of_beq h2'))
    · exact Or.inr (Or.inr (Or.inl (eq_of_beq h3')))
  · exact Or.inr (Or.inr (Or.inr (eq_of_beq h4)))

lemma isOpChar_eq_false {c : Char} (h1 : c.toNat ≠ 43) (h2 : c.toNat ≠ 45)
    (h3 : c.toNat ≠ 42) (h4 : c.toNat ≠ 47) : isOpChar c = false := by
  unfold isOpChar
  rw [char_beq_false h1, char_beq_false h2, char_beq_false h3, char_beq_false h4]
  rfl

lemma digitDot_scanStep (st : ScanState) (c : Char)
    (h : (c == '.' || isDigitChar c) = true) :
    scanStep st c = .ok { st with buffer := st.buffer.push c } := by
  rcases Bool.or_eq_true_iff.mp h with h' | h'
  · have hc : c = '.' := eq_of_beq h'
    subst hc
    simp +decide [scanStep]
  · obtain ⟨hv1, hv2⟩ := digit_bounds c h'
    have hws : rustIsWhitespace c = false :=
      not_ws_of_visible_ascii c (by omega) (by omega)
    have hop : isOpChar c = false :=
      isOpChar_eq_false (by omega) (by omega) (by omega) (by omega)
    have hlp : (c == '(') = false := char_beq_false (show c.toNat ≠ 40 by omega)
    have hrp : (c == ')') = false := char_beq_false (show c.toNat ≠ 41 by omega)
    simp [scanStep, hws, hop, hlp, hrp, h']

lemma op_scanStep (st : ScanState) (c : Char) (h : isOpChar c = true) :
    scanStep st c =
      .ok ⟨(flushBuffer st).output ++ (popOps (flushBuffer st).stack (precOrZero c.toString)).1,
           c.toString :: (popOps (flushBuffer st).stack (precOrZero c.toString)).2,
           (flushBuffer st).buffer⟩ := by
  have hws : rustIsWhitespace c = false := by
    rcases op_char_cases h with rfl | rfl | rfl | rfl <;> decide
  simp [scanStep, hws, h]

lemma invalid_scanStep (st : ScanState) (c : Char) (h : validChar c = false) :
    scanStep st c = .error ("Invalid token: " ++ c.toString) := by
  simp only [validChar, Bool.or_eq_false_iff] at h
  obtain ⟨⟨⟨⟨⟨h1, h2⟩, h3⟩, h4⟩, h5⟩, h6⟩ := h
  simp [scanStep, h1, h2, h3, h4, h5, h6]

lemma scanStep_ok_of_valid (st : ScanState) (c : Char) (h : validChar c = true) :
    ∃ st', scanStep st c = .ok st' := by
  unfold scanStep
  by_cases h1 : rustIsWhitespace c = true
  · exact ⟨_, by rw [if_pos h1]⟩
  rw [if_neg h1]
  by_cases h2 : isOpChar c = true
  · exact ⟨_, by rw [if_pos h2]⟩
  rw [if_neg h2]
  by_cases h3 : (c == '(') = true
  · exact ⟨_, by rw [if_pos h3]⟩
  rw [if_neg h3]
  by_cases h4 : (c == ')') = true
  · exact ⟨_, by rw [if_pos h4]⟩
  rw [if_neg h4]
  by_cases h5 : (c == '.' || isDigitChar c) = true
  · exact ⟨_, by rw [if_pos h5]⟩
  exfalso
  simp only [validChar, Bool.or_eq_true] at h
  simp only [Bool.or_eq_true] at h5
  tauto

end CharClassLemmas

section ScanLemmas

lemma scanChars_ok_iff (cs : List Char) (st : ScanState) :
    (∃ st', scanChars st cs = .ok st') ↔ ∀ c ∈ cs, validChar c = true := by
  induction cs generalizing st with
  | nil => simp [scanChars]
  | cons c cs ih =>
    by_cases hc : validChar c = true
    · obtain ⟨st1, hst1⟩ := scanStep_ok_of_valid st c hc
      rw [scanChars_cons, hst1, ok_bind]
      simp only [List.mem_cons]
      constructor
      · intro hex d hd
        rcases hd with rfl | hd
        · exact hc
        · exact ((ih st1).mp hex) d hd
      · intro hall
        exact (ih st1).mpr fun d hd => hall d (Or.inr hd)
    · rw [Bool.not_eq_true] at hc
      rw [scanChars_cons, invalid_scanStep st c hc, err_bind]
      constructor
      · rintro ⟨st', h'⟩
        cases h'
      · intro hall
        exact absurd (hall c (List.mem_cons_self c cs)) (by simp [hc])

lemma scanChars_first_invalid (pre : List Char) (c : Char) (suf : List Char)
    (st : ScanState) (hpre : ∀ d ∈ pre, validChar d = true)
    (hc : validChar c = false) :
    scanChars st (pre ++ c :: suf) = .error ("Invalid token: " ++ c.toString) := by
  induction pre generalizing st with
  | nil =>
    rw [List.nil_append, scanChars_cons, invalid_scanStep st c hc, err_bind]
  | cons d pre ih =>
    obtain ⟨st1, hst1⟩ := scanStep_ok_of_valid st d (hpre d (List.mem_cons_self d pre))
    rw [List.cons_append, scanChars_cons, hst1, ok_bind]
    exact ih st1 fun e he => hpre e (List.mem_cons_of_mem d he)

lemma from_infix_ok_iff (s : String) :
    (∃ out, from_infix_string s = .ok out) ↔ ∀ c ∈ s.data, validChar c = true := by
  rw [← scanChars_ok_iff s.data ⟨[], [], ""⟩]
  unfold from_infix_string
  constructor
  · rintro ⟨out, hout⟩
    cases hsc : scanChars ⟨[], [], ""⟩ s.data with
    | error e =>
      rw [hsc] at hout
      cases hout
    | ok st => exact ⟨st, rfl⟩
  · rintro ⟨st, hst⟩
    rw [hst]
    exact ⟨_, rfl⟩

lemma scanChars_digitDot (cs : List Char) (st : ScanState)
    (h : ∀ c ∈ cs, (c == '.' || isDigitChar c) = true) :
    scanChars st cs = .ok { st with buffer := ⟨st.buffer.data ++ cs⟩ } := by
  induction cs generalizing st with
  | nil => simp [scanChars]
  | cons c cs ih =>
    rw [scanChars_cons, digitDot_scanStep st c (h c (List.mem_cons_self c cs)), ok_bind,
        ih _ fun d hd => h d (List.mem_cons_of_mem c hd)]
    congr 2
    show ({ data := (st.buffer.push c).data ++ cs } : String) = { data := st.buffer.data ++ c :: cs }
    simp [String.push]

end ScanLemmas

section InvariantLemmas

lemma popOps_fst_subset (stack : List String) (p : Nat) :
    ∀ x ∈ (popOps stack p).1, x ∈ stack := by
  induction stack with
  | nil => simp [popOps]
  | cons top rest ih =>
    intro x hx
    unfold popOps at hx
    by_cases hp : p < precOrZero top
    · rw [if_pos hp] at hx
      rcases List.mem_cons.mp hx with rfl | hx
      · exact List.mem_cons_self x rest
      · exact List.mem_cons_of_mem top (ih x hx)
    · rw [if_neg hp] at hx
      cases hx

lemma popOps_snd_subset (stack : List String) (p : Nat) :
    ∀ x ∈ (popOps stack p).2, x ∈ stack := by
  induction stack with
  | nil => simp [popOps]
  | cons top rest ih =>
    intro x hx
    unfold popOps at hx
    by_cases hp : p < precOrZero top
    · rw [if_pos hp] at hx
      exact List.mem_cons_of_mem top (ih x hx)
    · rw [if_neg hp] at hx
      exact hx

lemma popUntilParen_fst_subset (stack : List String) :
    ∀ x ∈ (popUntilParen stack).1, x ∈ stack := by
  induction stack with
  | nil => simp [popUntilParen]
  | cons top rest ih =>
    intro x hx
    unfold popUntilParen at hx
    by_cases hp : (top == "(") = true
    · rw [if_pos hp] at hx
      cases hx
    · rw [if_neg hp] at hx
      rcases List.mem_cons.mp hx with rfl | hx
      · exact List.mem_cons_self x rest
      · exact List.mem_cons_of_mem top (ih x hx)

lemma popUntilParen_snd_subset (stack : List String) :
    ∀ x ∈ (popUntilParen stack).2, x ∈ stack := by
  induction stack with
  | nil => simp [popUntilParen]
  | cons top rest ih =>
    intro x hx
    unfold popUntilParen at hx
    by_cases hp : (top == "(") = true
    · rw [if_pos hp] at hx
      exact hx
    · rw [if_neg hp] at hx
      exact List.mem_cons_of_mem top (ih x hx)

lemma buffer_ne_close (b : String)
    (hb : ∀ c ∈ b.data, (c == '.' || isDigitChar c) = true) : b ≠ ")" := by
  intro he
  subst he
  exact absurd (hb ')' (by decide)) (by decide)

lemma flushBuffer_inv (st : ScanState) (h : NoCloseParen st) :
    NoCloseParen (flushBuffer st) ∧ (flushBuffer st).buffer = "" := by
  by_cases hb : st.buffer = ""
  · rw [flushBuffer_of_empty st hb]
    exact ⟨h, hb⟩
  · rw [flushBuffer_of_ne st hb]
    refine ⟨⟨?_, h.2.1, by simp⟩, rfl⟩
    intro t ht
    rcases List.mem_append.mp ht with ht | ht
    · exact h.1 t ht
    · rcases List.mem_singleton.mp ht with rfl
      exact buffer_ne_close _ h.2.2

lemma scanStep_inv (st : ScanState) (c : Char) (st' : ScanState)
    (h : NoCloseParen st) (hs : scanStep st c = .ok st') : NoCloseParen st' := by
  unfold scanStep at hs
  by_cases h1 : rustIsWhitespace c = true
  · rw [if_pos h1] at hs
    cases hs
    exact (flushBuffer_inv st h).1
  rw [if_neg h1] at hs
  by_cases h2 : isOpChar c = true
  · rw [if_pos h2] at hs
    cases hs
    obtain ⟨hfl, hbuf⟩ := flushBuffer_inv st h
    refine ⟨?_, ?_, ?_⟩
    · intro t ht
      rcases List.mem_append.mp ht with ht | ht
      · exact hfl.1 t ht
      · exact hfl.2.1 t (popOps_fst_subset _ _ t ht)
    · intro t ht
      rcases List.mem_cons.mp ht with rfl | ht
      · rcases op_char_cases h2 with rfl | rfl | rfl | rfl <;> decide
      · exact hfl.2.1 t (popOps_snd_subset _ _ t ht)
    · rw [hbuf]
      intro x hx
      cases hx
  rw [if_neg h2] at hs
  by_cases h3 : (c == '(') = true
  · rw [if_pos h3] at hs
    cases hs
    refine ⟨h.1, ?_, h.2.2⟩
    intro t ht
    rcases List.mem_cons.mp ht with rfl | ht
    · rw [eq_of_beq h3]
      decide
    · exact h.2.1 t ht
  rw [if_neg h3] at hs
  by_cases h4 : (c == ')') = true
  · rw [if_pos h4] at hs
    cases hs
    obtain ⟨hfl, hbuf⟩ := flushBuffer_inv st h
    refine ⟨?_, ?_, ?_⟩
    · intro t ht
      rcases List.mem_append.mp ht with ht | ht
      · exact hfl.1 t ht
      · exact hfl.2.1 t (popUntilParen_fst_subset _ t ht)
    · intro t ht
      exact hfl.2.1 t (popUntilParen_snd_subset _ t (List.mem_of_mem_tail ht))
    · rw [hbuf]
      intro x hx
      cases hx
  rw [if_neg h4] at hs
  by_cases h5 : (c == '.' || isDigitChar c) = true
  · rw [if_pos h5] at hs
    cases hs
    refine ⟨h.1, h.2.1, ?_⟩
    intro x hx
    have hx' : x ∈ st.buffer.data ++ [c] := by simpa [String.push] using hx
    rcases List.mem_append.mp hx' with hx'' | hx''
    · exact h.2.2 x hx''
    · rcases List.mem_singleton.mp hx'' with rfl
      exact h5
  · rw [if_neg h5] at hs
    cases hs

lemma scanChars_inv (cs : List Char) (st : ScanState) (st' : ScanState)
    (h : NoCloseParen st) (hs : scanChars st cs = .ok st') : NoCloseParen st' := by
  induction cs generalizing st with
  | nil =>
    rw [scanChars] at hs
    cases hs
    exact h
  | cons c cs ih =>
    rw [scanChars_cons] at hs
    cases hstep : scanStep st c with
    | error e =>
      rw [hstep, err_bind] at hs
      cases hs
    | ok st1 =>
      rw [hstep, ok_bind] at hs
      exact ih st1 (scanStep_inv st c st1 h hstep) hs

end InvariantLemmas

section CalcLemmas

lemma map_ok {α β : Type} (a : α) (f : α → β) :
    (Except.ok a : Except String α).map f = .ok (f a) := rfl

lemma evalInfixString_eq (input : String) :
    evalInfixString input = Except.bind (from_infix_string input) calculate := rfl

lemma calculate_eq (tokens : List String) :
    calculate tokens = Except.bind (calcTokens [] tokens) calcFinish := rfl

lemma calcTokens_cons (numbers : List ℚ) (x : String) (xs : List String) :
    calcTokens numbers (x :: xs) =
      Except.bind (calcStep numbers x) fun n => calcTokens n xs := rfl

lemma scanChars_space (st : ScanState) (cs : List Char) :
    scanChars st (' ' :: cs) = scanChars (flushBuffer st) cs := by
  rw [scanChars_cons, ws_scanStep st ' ' (by decide), ok_bind]

lemma op_scanStep_empty (o : List String) (c : Char) (h : isOpChar c = true) :
    scanStep ⟨o, [], ""⟩ c = .ok ⟨o, [c.toString], ""⟩ := by
  rw [op_scanStep _ c h]
  simp +decide [flushBuffer, popOps]

lemma parse_ne_empty (s : String) (a : ℚ) (h : parseDecimal s = some a) :
    s ≠ "" := by
  intro he
  rw [he] at h
  cases h

lemma token_not_op (s : String)
    (hs : ∀ c ∈ s.data, (c == '.' || isDigitChar c) = true) :
    (s == "+" || s == "-" || s == "*" || s == "/") = false := by
  have h1 : (s == "+") = false := by
    rw [Bool.eq_false_iff, ne_eq, beq_iff_eq]
    rintro rfl
    exact absurd (hs '+' (by decide)) (by decide)
  have h2 : (s == "-") = false := by
    rw [Bool.eq_false_iff, ne_eq, beq_iff_eq]
    rintro rfl
    exact absurd (hs '-' (by decide)) (by decide)
  have h3 : (s == "*") = false := by
    rw [Bool.eq_false_iff, ne_eq, beq_iff_eq]
    rintro rfl
    exact absurd (hs '*' (by decide)) (by decide)
  have h4 : (s == "/") = false := by
    rw [Bool.eq_false_iff, ne_eq, beq_iff_eq]
    rintro rfl
    exact absurd (hs '/' (by decide)) (by decide)
  rw [h1, h2, h3, h4]
  rfl

lemma calcStep_of_parse (numbers : List ℚ) (s : String) (a : ℚ)
    (hs : ∀ c ∈ s.data, (c == '.' || isDigitChar c) = true)
    (ha : parseDecimal s = some a) :
    calcStep numbers s = .ok (a :: numbers) := by
  unfold calcStep
  rw [if_neg (by simp [token_not_op s hs]), ha]

lemma calcStep_op_short (numbers : List ℚ) (op : String)
    (hop : (op == "+" || op == "-" || op == "*" || op == "/") = true)
    (hlen : numbers.length < 2) :
    calcStep numbers op = .error "not enough input" := by
  unfold calcStep
  rw [if_pos hop]
  rcases numbers with _ | ⟨x, _ | ⟨y, rest⟩⟩
  · rfl
  · rfl
  · exfalso
    simp only [List.length_cons] at hlen
    omega

end CalcLemmas

/-- Claim C2 (code evaluated at the failing input): the scanner never pops an
operator of equal precedence, which makes same-precedence operators
right-associative, not left-associative. On the literal input
`10 - 2 - 3` the trailing `3` is dropped and evaluation fails; with a
trailing whitespace the pipeline returns `Ok(11.0)` — `10 - (2 - 3)` —
and not the `5.0` of left-to-right evaluation. -/
theorem claim_C2_bug :
    evalInfixString "10 - 2 - 3" = .error "not enough input" ∧
    evalInfixString "10 - 2 - 3 " = .ok 11 ∧ (11 : ℚ) ≠ 5 := by
  refine ⟨rfl, ?_, by norm_num⟩
  have h : from_infix_string "10 - 2 - 3 " = .ok ["10", "2", "3", "-", "-"] := rfl
  rw [evalInfixString_eq, h, ok_bind]
  simp +decide [calculate, calcTokens, calcStep, calcFinish, parseDecimal, splitDot,
    digitsToNat, compute_result, Bind.bind, Except.bind, Pure.pure, Except.pure]
  norm_num

/-- Claim C3 (counterexample): a successful conversion can emit the grouping
symbol `"("` — an unmatched open parenthesis is drained from the operator
stack into the output. -/
theorem claim_C3_cex :
    from_infix_string "(" = .ok ["("] ∧ "(" ∈ (["("] : List String) :=
  ⟨rfl, by decide⟩

/-- Claim C3 (amended): a token sequence produced by a successful conversion
never contains the closing grouping symbol `")"` (the opening one can occur,
via the final drain of an unmatched `"("`). -/
theorem claim_C3 (input : String) (out : List String)
    (h : from_infix_string input = .ok out) : ∀ t ∈ out, t ≠ ")" := by
  unfold from_infix_string at h
  cases hsc : scanChars ⟨[], [], ""⟩ input.data with
  | error e =>
    rw [hsc] at h
    cases h
  | ok st =>
    rw [hsc, map_ok] at h
    cases h
    have hinit : NoCloseParen ⟨[], [], ""⟩ := by
      refine ⟨?_, ?_, ?_⟩ <;> intro x hx <;> exact absurd hx (List.not_mem_nil x)
    have hinv := scanChars_inv input.data ⟨[], [], ""⟩ st hinit hsc
    intro t ht
    rcases List.mem_append.mp ht with ht | ht
    · exact hinv.1 t ht
    · exact hinv.2.1 t ht

/-- Witness for C3: the conversion of `1 + 2 ` succeeds with output
`["1", "2", "+"]`, and by C3 its member `"+"` is not `")"`. -/
theorem claim_C3_witness :
    from_infix_string "1 + 2 " = .ok ["1", "2", "+"] ∧ ("+" : String) ≠ ")" :=
  ⟨rfl, claim_C3 "1 + 2 " ["1", "2", "+"] rfl "+" (by decide)⟩

/-- Claim C4 (counterexample): evaluating `2 * 3 + 4` does not return
`Ok(10.0)`; the scanner drops the trailing `4`, so the final `+` finds only
one operand and evaluation fails. -/
theorem claim_C4_cex :
    evalInfixString "2 * 3 + 4" = .error "not enough input" := rfl

/-- Claim C4 (amended): parenthesization overrides precedence —
`2 * (3 + 4)` evaluates to `Ok(14.0)`, and `2 * 3 + 4 ` (trailing
whitespace, so the last literal is flushed) evaluates to `Ok(10.0)`. -/
theorem claim_C4 :
    evalInfixString "2 * (3 + 4)" = .ok 14 ∧
    evalInfixString "2 * 3 + 4 " = .ok 10 := by
  constructor
  · have h : from_infix_string "2 * (3 + 4)" = .ok ["2", "3", "4", "+", "*"] := rfl
    rw [evalInfixString_eq, h, ok_bind]
    simp +decide [calculate, calcTokens, calcStep, calcFinish, parseDecimal, splitDot,
      digitsToNat, compute_result, Bind.bind, Except.bind, Pure.pure, Except.pure]
    norm_num
  · have h : from_infix_string "2 * 3 + 4 " = .ok ["2", "3", "*", "4", "+"] := rfl
    rw [evalInfixString_eq, h, ok_bind]
    simp +decide [calculate, calcTokens, calcStep, calcFinish, parseDecimal, splitDot,
      digitsToNat, compute_result, Bind.bind, Except.bind, Pure.pure, Except.pure]
    norm_num

/-- Claim C5: a numeric buffer still pending when the input ends is
discarded — `from_infix_string` builds its result from the scan state's
output and operator stack only, never from the final buffer, so
`from_infix_string "1 + 2"` returns `["1", "+"]` with the `"2"` dropped. -/
theorem claim_C5 :
    from_infix_string "1 + 2" = .ok ["1", "+"] ∧
    ∀ (input : String) (st : ScanState),
      scanChars ⟨[], [], ""⟩ input.data = .ok st →
      from_infix_string input = .ok (st.output ++ st.stack) := by
  refine ⟨rfl, ?_⟩
  intro input st h
  unfold from_infix_string
  rw [h, map_ok]

/-- Witness for C5: the scan of `1 + 2` ends in state
`⟨["1"], ["+"], "2"⟩`, and the result is `["1"] ++ ["+"]` — the pending
buffer `"2"` is gone. -/
theorem claim_C5_witness :
    from_infix_string "1 + 2" = .ok (["1"] ++ ["+"]) :=
  claim_C5.2 "1 + 2" ⟨["1"], ["+"], "2"⟩ rfl

/-- Claim C6: whitespace is insignificant between tokens — both
`1+3-(4/5)` and `1 + 3 - (4 / 5)` evaluate to `Ok(3.2)` (the exact
rational 16/5), and a whitespace character only flushes the pending
numeric buffer (it is never emitted as a token). -/
theorem claim_C6 :
    evalInfixString "1+3-(4/5)" = .ok (16 / 5) ∧
    evalInfixString "1 + 3 - (4 / 5)" = .ok (16 / 5) ∧
    ∀ (st : ScanState) (c : Char), rustIsWhitespace c = true →
      scanStep st c = .ok (flushBuffer st) := by
  refine ⟨?_, ?_, ws_scanStep⟩
  · have h : from_infix_string "1+3-(4/5)" = .ok ["1", "3", "4", "5", "/", "-", "+"] := rfl
    rw [evalInfixString_eq, h, ok_bind]
    simp +decide [calculate, calcTokens, calcStep, calcFinish, parseDecimal, splitDot,
      digitsToNat, compute_result, Bind.bind, Except.bind, Pure.pure, Except.pure]
    norm_num
  · have h : from_infix_string "1 + 3 - (4 / 5)" = .ok ["1", "3", "4", "5", "/", "-", "+"] := rfl
    rw [evalInfixString_eq, h, ok_bind]
    simp +decide [calculate, calcTokens, calcStep, calcFinish, parseDecimal, splitDot,
      digitsToNat, compute_result, Bind.bind, Except.bind, Pure.pure, Except.pure]
    norm_num

/-- Witness for C6: on the concrete state `⟨["1"], [], "3"⟩` the space
character flushes the buffer and does nothing else. -/
theorem claim_C6_witness :
    scanStep ⟨["1"], [], "3"⟩ ' ' = .ok (flushBuffer ⟨["1"], [], "3"⟩) :=
  claim_C6.2.2 ⟨["1"], [], "3"⟩ ' ' (by decide)

/-- Claim C7: conversion fails exactly when some character of the input is
outside the accepted set (whitespace, `+ - * /`, parentheses, digits, `.`);
it fails at the first such character, whose rendering appears in the error
message, and no partial token sequence is returned (the error carries
nothing else). -/
theorem claim_C7 (s : String) :
    ((∃ out, from_infix_string s = .ok out) ↔ ∀ c ∈ s.data, validChar c = true) ∧
    ∀ (pre : List Char) (c : Char) (suf : List Char),
      s.data = pre ++ c :: suf → (∀ d ∈ pre, validChar d = true) →
      validChar c = false →
      from_infix_string s = .error ("Invalid token: " ++ c.toString) := by
  refine ⟨from_infix_ok_iff s, ?_⟩
  intro pre c suf hdata hpre hc
  unfold from_infix_string
  rw [hdata, scanChars_first_invalid pre c suf _ hpre hc]
  rfl

/-- Witness for C7: converting `3 + x` fails with the offending character
`x` reported. -/
theorem claim_C7_witness :
    from_infix_string "3 + x" = .error "Invalid token: x" :=
  (claim_C7 "3 + x").2 ['3', ' ', '+', ' '] 'x' [] rfl (by decide) (by decide)

/-- Claim C8: when an operator token is processed with fewer than two values
on the operand stack, evaluation stops with the insufficient-operands error
(`not enough input`); in particular converting and evaluating `+` fails with
that error. -/
theorem claim_C8 :
    (∀ (op : String) (numbers : List ℚ) (ts : List String),
      (op == "+" || op == "-" || op == "*" || op == "/") = true →
      numbers.length < 2 →
      calcTokens numbers (op :: ts) = .error "not enough input") ∧
    evalInfixString "+" = .error "not enough input" := by
  refine ⟨?_, rfl⟩
  intro op numbers ts hop hlen
  rw [calcTokens_cons, calcStep_op_short numbers op hop hlen, err_bind]

/-- Witness for C8: the operator `+` applied to an empty operand stack
fails at once. -/
theorem claim_C8_witness :
    calcTokens [] ["+"] = .error "not enough input" :=
  claim_C8.1 "+" [] [] (by decide) (by decide)

/-- Claim C9: an unmatched closing parenthesis never fails the conversion:
on `)` with an empty operator stack the scanner only flushes the pending
buffer (the pop is a silent no-op); any input of accepted characters still
converts, and the concrete input `3 + 4)` converts successfully. -/
theorem claim_C9 :
    (∀ st : ScanState, st.stack = [] → scanStep st ')' = .ok (flushBuffer st)) ∧
    (∀ s : String, (∀ c ∈ s.data, validChar c = true) →
      ∃ out, from_infix_string s = .ok out) ∧
    from_infix_string "3 + 4)" = .ok ["3", "4", "+"] := by
  refine ⟨?_, fun s h => (from_infix_ok_iff s).mpr h, rfl⟩
  intro st hstk
  have hfl : (flushBuffer st).stack = [] := by
    unfold flushBuffer
    split
    · exact hstk
    · exact hstk
  have h4 : scanStep st ')' =
      .ok ⟨(flushBuffer st).output ++ (popUntilParen (flushBuffer st).stack).1,
           (popUntilParen (flushBuffer st).stack).2.tail, (flushBuffer st).buffer⟩ := by
    simp +decide [scanStep]
  rw [h4, hfl]
  simp only [popUntilParen, List.append_nil, List.tail_nil]
  rw [← hfl]

/-- Witness for C9: on the concrete state `⟨["3"], [], "4"⟩` (empty
operator stack) the `)` character only flushes the buffer. -/
theorem claim_C9_witness :
    scanStep ⟨["3"], [], "4"⟩ ')' = .ok (flushBuffer ⟨["3"], [], "4"⟩) :=
  claim_C9.1 ⟨["3"], [], "4"⟩ rfl

/-- Claim C10: after all tokens are processed the evaluator only pops one
value — it returns the most recently pushed value, ignores deeper leftover
values, and fails with `not enough input` exactly when the stack is empty;
the malformed input `1 2 3 ` therefore yields `Ok(3.0)`. -/
theorem claim_C10 :
    (∀ (v : ℚ) (vs : List ℚ), calcFinish (v :: vs) = .ok v) ∧
    calcFinish [] = .error "not enough input" ∧
    evalInfixString "1 2 3 " = .ok 3 := by
  refine ⟨fun v vs => rfl, rfl, ?_⟩
  have h : from_infix_string "1 2 3 " = .ok ["1", "2", "3"] := rfl
  rw [evalInfixString_eq, h, ok_bind]
  simp +decide [calculate, calcTokens, calcStep, calcFinish, parseDecimal, splitDot,
    digitsToNat, compute_result, Bind.bind, Except.bind, Pure.pure, Except.pure]

/-- Scanning a two-operand infix expression `sa c sb ` (single spaces, one
operator character, trailing space): the scan ends with both literals in
the output and the operator alone on the stack. -/
lemma scan_binop (sa sb : String) (c : Char) (hc : isOpChar c = true)
    (hsa : ∀ d ∈ sa.data, (d == '.' || isDigitChar d) = true)
    (hsb : ∀ d ∈ sb.data, (d == '.' || isDigitChar d) = true)
    (hnea : sa ≠ "") (hneb : sb ≠ "") :
    scanChars ⟨[], [], ""⟩ (sa.data ++ (' ' :: (c :: (' ' :: (sb.data ++ [' ']))))) =
      .ok ⟨[sa] ++ [sb], [c.toString], ""⟩ := by
  have hsa2 : scanChars ⟨[], [], ""⟩ sa.data = .ok ⟨[], [], sa⟩ := by
    rw [scanChars_digitDot sa.data ⟨[], [], ""⟩ hsa]
    rfl
  have hsb2 : scanChars ⟨[sa], [c.toString], ""⟩ sb.data = .ok ⟨[sa], [c.toString], sb⟩ := by
    rw [scanChars_digitDot sb.data ⟨[sa], [c.toString], ""⟩ hsb]
    rfl
  calc scanChars ⟨[], [], ""⟩ (sa.data ++ (' ' :: (c :: (' ' :: (sb.data ++ [' '])))))
      = scanChars ⟨[], [], sa⟩ (' ' :: (c :: (' ' :: (sb.data ++ [' '])))) := by
        rw [scanChars_append, hsa2, ok_bind]
    _ = scanChars ⟨[sa], [], ""⟩ (c :: (' ' :: (sb.data ++ [' ']))) := by
        rw [scanChars_space, flushBuffer_of_ne ⟨[], [], sa⟩ hnea]
        rfl
    _ = scanChars ⟨[sa], [c.toString], ""⟩ (' ' :: (sb.data ++ [' '])) := by
        rw [scanChars_cons, op_scanStep_empty [sa] c hc, ok_bind]
    _ = scanChars ⟨[sa], [c.toString], sb⟩ [' '] := by
        rw [scanChars_space, flushBuffer_of_empty ⟨[sa], [c.toString], ""⟩ rfl,
            scanChars_append, hsb2, ok_bind]
    _ = .ok ⟨[sa] ++ [sb], [c.toString], ""⟩ := by
        rw [scanChars_space, flushBuffer_of_ne ⟨[sa], [c.toString], sb⟩ hneb]
        rfl

/-- Claim C1 (counterexample): with no trailing whitespace the final
literal is dropped by the scanner, so converting and evaluating `1 + 2`
returns an insufficient-operands error, not `Ok(3.0)`; the converted
sequence is `["1", "+"]`. -/
theorem claim_C1_cex :
    evalInfixString "1 + 2" = .error "not enough input" ∧
    from_infix_string "1 + 2" = .ok ["1", "+"] := ⟨rfl, rfl⟩

/-- Claim C1 (amended): for every operator `op ∈ {+,-,*,/}` and decimal
literal operand strings `sa`, `sb` (parsed values `a`, `b`), converting
`"sa op sb "` — single spaces and a trailing whitespace so the final
literal is flushed — and evaluating returns exactly `compute_result a b op`,
that is `Ok(a op b)`; with numbers modelled as rationals, division by zero
also returns `Ok` (never an error). -/
theorem claim_C1 (op sa sb : String) (a b : ℚ)
    (hop : op ∈ (["+", "-", "*", "/"] : List String))
    (hsa : ∀ c ∈ sa.data, (c == '.' || isDigitChar c) = true)
    (hsb : ∀ c ∈ sb.data, (c == '.' || isDigitChar c) = true)
    (ha : parseDecimal sa = some a) (hb : parseDecimal sb = some b) :
    evalInfixString (sa ++ " " ++ op ++ " " ++ sb ++ " ") = compute_result a b op := by
  have hnea : sa ≠ "" := parse_ne_empty sa a ha
  have hneb : sb ≠ "" := parse_ne_empty sb b hb
  simp only [List.mem_cons, List.not_mem_nil, or_false] at hop
  rcases hop with rfl | rfl | rfl | rfl
  · have hdata : (sa ++ " " ++ "+" ++ " " ++ sb ++ " ").data
        = sa.data ++ (' ' :: ('+' :: (' ' :: (sb.data ++ [' '])))) := by
      simp [String.data_append]
    have hconv : from_infix_string (sa ++ " " ++ "+" ++ " " ++ sb ++ " ")
        = .ok [sa, sb, "+"] := by
      unfold from_infix_string
      rw [hdata, scan_binop sa sb '+' (by decide) hsa hsb hnea hneb, map_ok]
      rfl
    rw [evalInfixString_eq, hconv, ok_bind, calculate_eq, calcTokens_cons,
        calcStep_of_parse [] sa a hsa ha, ok_bind, calcTokens_cons,
        calcStep_of_parse [a] sb b hsb hb, ok_bind, calcTokens_cons]
    rfl
  · have hdata : (sa ++ " " ++ "-" ++ " " ++ sb ++ " ").data
        = sa.data ++ (' ' :: ('-' :: (' ' :: (sb.data ++ [' '])))) := by
      simp [String.data_append]
    have hconv : from_infix_string (sa ++ " " ++ "-" ++ " " ++ sb ++ " ")
        = .ok [sa, sb, "-"] := by
      unfold from_infix_string
      rw [hdata, scan_binop sa sb '-' (by decide) hsa hsb hnea hneb, map_ok]
      rfl
    rw [evalInfixString_eq, hconv, ok_bind, calculate_eq, calcTokens_cons,
        calcStep_of_parse [] sa a hsa ha, ok_bind, calcTokens_cons,
        calcStep_of_parse [a] sb b hsb hb, ok_bind, calcTokens_cons]
    rfl
  · have hdata : (sa ++ " " ++ "*" ++ " " ++ sb ++ " ").data
        = sa.data ++ (' ' :: ('*' :: (' ' :: (sb.data ++ [' '])))) := by
      simp [String.data_append]
    have hconv : from_infix_string (sa ++ " " ++ "*" ++ " " ++ sb ++ " ")
        = .ok [sa, sb, "*"] := by
      unfold from_infix_string
      rw [hdata, scan_binop sa sb '*' (by decide) hsa hsb hnea hneb, map_ok]
      rfl
    rw [evalInfixString_eq, hconv, ok_bind, calculate_eq, calcTokens_cons,
        calcStep_of_parse [] sa a hsa ha, ok_bind, calcTokens_cons,
        calcStep_of_parse [a] sb b hsb hb, ok_bind, calcTokens_cons]
    rfl
  · have hdata : (sa ++ " " ++ "/" ++ " " ++ sb ++ " ").data
        = sa.data ++ (' ' :: ('/' :: (' ' :: (sb.data ++ [' '])))) := by
      simp [String.data_append]
    have hconv : from_infix_string (sa ++ " " ++ "/" ++ " " ++ sb ++ " ")
        = .ok [sa, sb, "/"] := by
      unfold from_infix_string
      rw [hdata, scan_binop sa sb '/' (by decide) hsa hsb hnea hneb, map_ok]
      rfl
    rw [evalInfixString_eq, hconv, ok_bind, calculate_eq, calcTokens_cons,
        calcStep_of_parse [] sa a hsa ha, ok_bind, calcTokens_cons,
        calcStep_of_parse [a] sb b hsb hb, ok_bind, calcTokens_cons]
    rfl

/-- Witness for C1: `6 / 3 ` evaluates to `compute_result 6 3 "/"`, that
is `Ok(2.0)`. -/
theorem claim_C1_witness :
    evalInfixString "6 / 3 " = compute_result 6 3 "/" :=
  claim_C1 "/" "6" "3" 6 3 (by decide) (by decide) (by decide)
    (by simp +decide [parseDecimal, splitDot, digitsToNat])
    (by simp +decide [parseDecimal, splitDot, digitsToNat])

end InfixCalculator
